import Mathlib

/-!
Shallow embedding of the 8-bit graymap image library (`image8bit.c`):
the image data model, pixel accessors, the point, geometric and
compositing operators, the (incomplete) blur, and the PGM (P5)
byte-stream codec, together with proofs about the claims of the
specification.

C `int` dimensions are modelled as `Nat` (the source asserts them
non-negative on creation); pixel coordinates are modelled as `Int`
(the source passes possibly-negative coordinates, e.g. in blur);
samples are `Nat` byte values; the C `double` brighten factor is
modelled as a rational number.
-/

/-- In-memory image (struct image in the source): width, height, maxval
and the row-major pixel raster. -/
structure Image where
  width : Nat
  height : Nat
  maxval : Nat
  pixel : List Nat
deriving DecidableEq

/-- ImageCreate: fresh image of the given dimensions, all samples 0. -/
def ImageCreate (width height maxval : Nat) : Image :=
  { width := width, height := height, maxval := maxval,
    pixel := List.replicate (width * height) 0 }

/-- ImageValidPos: `0 <= x < width && 0 <= y < height`. -/
def ImageValidPos (img : Image) (x y : Int) : Bool :=
  (0 ≤ x && x < (img.width : Int)) && (0 ≤ y && y < (img.height : Int))

/-- ImageValidRect: `0 <= x && x+w <= width && 0 <= y && y+h <= height`. -/
def ImageValidRect (img : Image) (x y w h : Int) : Bool :=
  (0 ≤ x && x + w ≤ (img.width : Int)) && (0 ≤ y && y + h ≤ (img.height : Int))

/-- Linear index `G(img, x, y) = y*width + x` into the raster. -/
def G (img : Image) (x y : Int) : Nat := (y * img.width + x).toNat

/-- ImageGetPixel: read the sample at `(x, y)`. -/
def ImageGetPixel (img : Image) (x y : Int) : Nat :=
  img.pixel.getD (G img x y) 0

/-- ImageSetPixel: write the sample at `(x, y)`. -/
def ImageSetPixel (img : Image) (x y : Int) (level : Nat) : Image :=
  { img with pixel := img.pixel.set (G img x y) level }

/-- One pixel of ImageBrighten: the source computes
`uint8 newPixel = (int)(currentPixel * factor);` and then clamps
`newPixel` to `maxval`.  For the non-negative factors of the contract the
C truncation toward zero of the double product is the floor, and the
implicit `int` → `uint8` conversion reduces it modulo 256 *before* the
clamp test. -/
def brightenPixel (maxval : Nat) (factor : ℚ) (s : Nat) : Nat :=
  let newPixel := (⌊(s : ℚ) * factor⌋).toNat % 256
  if maxval < newPixel then maxval else newPixel

/-- ImageBrighten: multiply every sample by `factor` (in-place loop over
rows then columns, reading each pixel from the current image state). -/
def ImageBrighten (img : Image) (factor : ℚ) : Image :=
  (List.range img.height).foldl (fun acc (y : Nat) =>
    (List.range img.width).foldl (fun acc2 (x : Nat) =>
      ImageSetPixel acc2 (x : Int) (y : Int)
        (brightenPixel img.maxval factor
          (ImageGetPixel acc2 (x : Int) (y : Int)))) acc) img

/-- ImageRotate: creates a `height × width` image and copies
`img(x, y)` into destination position `(height - y - 1, x)`. -/
def ImageRotate (img : Image) : Image :=
  let rotatedImage := ImageCreate img.height img.width img.maxval
  (List.range img.height).foldl (fun acc (y : Nat) =>
    (List.range img.width).foldl (fun acc2 (x : Nat) =>
      ImageSetPixel acc2 ((img.height : Int) - (y : Int) - 1) (x : Int)
        (ImageGetPixel img (x : Int) (y : Int))) acc) rotatedImage

/-- ImagePaste: copies the pixels of `img2` into `img1` at anchor `(x, y)`. -/
def ImagePaste (img1 : Image) (x y : Int) (img2 : Image) : Image :=
  (List.range img2.height).foldl (fun acc (j : Nat) =>
    (List.range img2.width).foldl (fun acc2 (i : Nat) =>
      ImageSetPixel acc2 (x + (i : Int)) (y + (j : Int))
        (ImageGetPixel img2 (i : Int) (j : Int))) acc) img1

/-- ImageMatchSubImage: true iff every sample of `img2` equals the
corresponding sample of `img1` anchored at `(x, y)` (the source loops
with an early `return 0` on the first mismatch). -/
def ImageMatchSubImage (img1 : Image) (x y : Int) (img2 : Image) : Bool :=
  (List.range img2.height).all (fun (j : Nat) =>
    (List.range img2.width).all (fun (i : Nat) =>
      ImageGetPixel img1 (x + (i : Int)) (y + (j : Int))
        == ImageGetPixel img2 (i : Int) (j : Int)))

/-- ImageLocateSubImage: scans anchors in row-major order,
`y < height1 - height2 + 1`, `x < width1 - width2 + 1` (bounds computed
in `int` arithmetic, so an over-large `img2` yields an empty scan), and
returns the first anchor where `img2` matches. -/
def ImageLocateSubImage (img1 img2 : Image) : Option (Int × Int) :=
  (List.range ((img1.height : Int) - img2.height + 1).toNat).findSome? (fun (y : Nat) =>
    (List.range ((img1.width : Int) - img2.width + 1).toNat).findSome? (fun (x : Nat) =>
      if ImageMatchSubImage img1 (x : Int) (y : Int) img2
      then some ((x : Int), (y : Int)) else none))

/-- The closed integer interval `[a, b]` as a list, the index range of a
C loop `for (i = a; i <= b; i++)`. -/
def intRange (a b : Int) : List Int :=
  (List.range (b - a + 1).toNat).map (fun k => a + k)

/-- The inner accumulation of ImageBlur at pixel `(x, y)`: sum of the
in-bounds samples of `orig` in the window `[x-dx, x+dx] × [y-dy, y+dy]`,
together with their count. -/
def blurSumCount (orig : Image) (dx dy x y : Int) : Nat × Nat :=
  (intRange (-dy) dy).foldl (fun sc j =>
    (intRange (-dx) dx).foldl (fun sc2 i =>
      if ImageValidPos orig (x + i) (y + j) then
        (sc2.1 + ImageGetPixel orig (x + i) (y + j), sc2.2 + 1)
      else sc2) sc) (0, 0)

/-- ImageBlur: the source snapshots `img` into `originalImage`, then
computes `sum`/`count` for every pixel but never stores the means back,
so the function's effect on `img` is nil and it returns `img` unchanged. -/
def ImageBlur (img : Image) (dx dy : Int) : Image :=
  let originalImage :=
    (List.range img.height).foldl (fun acc (y : Nat) =>
      (List.range img.width).foldl (fun acc2 (x : Nat) =>
        ImageSetPixel acc2 (x : Int) (y : Int)
          (ImageGetPixel img (x : Int) (y : Int))) acc)
      (ImageCreate img.width img.height img.maxval)
  let _means :=
    (List.range img.height).map (fun (y : Nat) =>
      (List.range img.width).map (fun (x : Nat) =>
        blurSumCount originalImage dx dy (x : Int) (y : Int)))
  img

/-! ### PGM (P5) codec over byte streams

`ImageSave` emits the header `P5\n<width> <height>\n<maxval>\n` followed
by the raster; `ImageLoad` parses it back with `fscanf`.  The byte
stream of the file is modelled as a `List Nat`; the `fscanf` conversions
`%d` (skip whitespace, optional sign, decimal digits), `%c`, the literal
match, and the comment skipper are modelled from the C standard library
semantics the source relies on. -/

/-- C `isspace` on a byte. -/
def isSpaceB (b : Nat) : Bool := b == 32 || (9 ≤ b && b ≤ 13)

/-- ASCII decimal digit test on a byte. -/
def isDigitB (b : Nat) : Bool := 48 ≤ b && b ≤ 57

/-- Whitespace skipping, as performed by a blank in a `fscanf` format
and by the `%d` conversion before the number. -/
def skipWS (l : List Nat) : List Nat := l.dropWhile isSpaceB

/-- Big-endian ASCII decimal digits of `n`, as emitted by `fprintf %d`
for a non-negative argument. -/
def natDec (n : Nat) : List Nat :=
  if h : n < 10 then [n + 48]
  else natDec (n / 10) ++ [n % 10 + 48]
decreasing_by exact Nat.div_lt_self (by omega) (by omega)

/-- Digit-run accumulator of the `%d` conversion: consumes leading
decimal digits, returning the value read and the rest of the stream. -/
def parseDigitsAux : List Nat → Nat → Nat × List Nat
  | [], acc => (acc, [])
  | b :: rest, acc =>
    if isDigitB b then parseDigitsAux rest (acc * 10 + (b - 48))
    else (acc, b :: rest)

/-- Body of the `%d` conversion after whitespace and sign handling:
requires at least one digit, else matching failure. -/
def scanIntCore (l : List Nat) (sign : Int) : Option (Int × List Nat) :=
  match l with
  | [] => none
  | b :: rest =>
    if isDigitB b then
      let p := parseDigitsAux (b :: rest) 0
      some (sign * (p.1 : Int), p.2)
    else none

/-- The `fscanf` `%d` conversion: skip whitespace, optional sign, then
a nonempty digit run. -/
def scanInt (l : List Nat) : Option (Int × List Nat) :=
  match skipWS l with
  | [] => none
  | b :: rest =>
    if b == 45 then scanIntCore rest (-1)
    else if b == 43 then scanIntCore rest 1
    else scanIntCore (b :: rest) 1

/-- One step of `skipComments`: `fscanf(f, "#%*[^\n]%c", &c)` matches a
literal `#`, a nonempty run of non-newline bytes, and one more byte `c`;
the loop continues while the call assigns `c` and `c` is a newline. -/
def skipCommentsAux : Nat → List Nat → List Nat
  | 0, l => l
  | fuel + 1, l =>
    match l with
    | [] => l
    | b :: rest =>
      if b == 35 then
        match rest with
        | [] => []
        | b2 :: _ =>
          if b2 == 10 then rest
          else
            match rest.dropWhile (fun x => x != 10) with
            | [] => []
            | c :: rest2 => if c == 10 then skipCommentsAux fuel rest2 else c :: rest2
      else l

/-- skipComments: skip 0 or more `#`-to-newline comment lines. -/
def skipComments (l : List Nat) : List Nat := skipCommentsAux l.length l

/-- Raster stage of ImageLoad: the `%c` whitespace check after maxval,
then `fread` of `w*h` bytes (failing when the stream is short). -/
def loadPixels (w h m : Int) (l : List Nat) : Except String Image :=
  match l with
  | [] => Except.error "Whitespace expected"
  | c :: rest =>
    if isSpaceB c then
      if w.toNat * h.toNat ≤ rest.length then
        Except.ok { width := w.toNat, height := h.toNat, maxval := m.toNat,
                    pixel := rest.take (w.toNat * h.toNat) }
      else Except.error "Reading pixels"
    else Except.error "Whitespace expected"

/-- Header stage of ImageLoad after the magic `P5` and its trailing
whitespace skip: comments, width, comments, height, comments, maxval,
each with its range check, then the raster stage. -/
def loadDims (l : List Nat) : Except String Image :=
  match scanInt (skipComments l) with
  | none => Except.error "Invalid width"
  | some (w, r) =>
    if 0 ≤ w then
      match scanInt (skipComments (skipWS r)) with
      | none => Except.error "Invalid height"
      | some (h, r2) =>
        if 0 ≤ h then
          match scanInt (skipComments (skipWS r2)) with
          | none => Except.error "Invalid maxval"
          | some (m, r3) =>
            if 0 < m ∧ m ≤ 255 then loadPixels w h m r3
            else Except.error "Invalid maxval"
        else Except.error "Invalid height"
    else Except.error "Invalid width"

/-- ImageLoad on a byte stream: `fscanf(f, "P%c ", &c)` with `c = '5'`
required, then the header and raster stages.  Failures carry the
`errCause` strings of the source. -/
def ImageLoadBytes (l : List Nat) : Except String Image :=
  match l with
  | p :: c :: rest =>
    if p == 80 && c == 53 then loadDims (skipWS rest)
    else Except.error "Invalid file format"
  | _ => Except.error "Invalid file format"

/-- ImageSave on a byte stream: `fprintf(f, "P5\n%d %d\n%u\n", w, h,
maxval)` followed by `fwrite` of the raster. -/
def ImageSaveBytes (img : Image) : List Nat :=
  [80, 53, 10] ++ natDec img.width ++ [32] ++ natDec img.height ++ [10] ++
    natDec img.maxval ++ [10] ++ img.pixel

/-- The maxval field of a PGM header: the parse prefix of ImageLoad up
to and including the third `%d` conversion, with the width and height
checks of the source. -/
def parseMaxvalField (l : List Nat) : Option Int :=
  match l with
  | p :: c :: rest =>
    if p == 80 && c == 53 then
      match scanInt (skipComments (skipWS rest)) with
      | none => none
      | some (w, r) =>
        if 0 ≤ w then
          match scanInt (skipComments (skipWS r)) with
          | none => none
          | some (h, r2) =>
            if 0 ≤ h then
              match scanInt (skipComments (skipWS r2)) with
              | none => none
              | some (m, _) => some m
            else none
        else none
    else none
  | _ => none

/-! ### Shared lemmas about the pixel raster and the write loops -/

/-- Shape of an image: fixed width, height, maxval and raster length. -/
def ShapeEq (W H M L : Nat) (img : Image) : Prop :=
  img.width = W ∧ img.height = H ∧ img.maxval = M ∧ img.pixel.length = L

lemma shapeEq_setPixel {W H M L : Nat} {img : Image} (hs : ShapeEq W H M L img)
    (x y : Int) (lvl : Nat) : ShapeEq W H M L (ImageSetPixel img x y lvl) := by
  obtain ⟨h1, h2, h3, h4⟩ := hs
  exact ⟨h1, h2, h3, by simpa [ImageSetPixel] using h4⟩

/-- Folding a list of update steps that each preserve an invariant `Q`
and an observation `G` preserves both. -/
lemma foldl_preserve {α β : Type} (F : Image → α → Image) (Q : Image → Prop)
    (G : Image → β) :
    ∀ (l : List α),
      (∀ img a, a ∈ l → Q img → Q (F img a)) →
      (∀ img a, a ∈ l → Q img → G (F img a) = G img) →
      ∀ acc, Q acc → Q (l.foldl F acc) ∧ G (l.foldl F acc) = G acc := by
  intro l
  induction l with
  | nil => intro _ _ acc hacc; exact ⟨hacc, rfl⟩
  | cons a t ih =>
    intro hQ hG acc hacc
    have h1 : Q (F acc a) := hQ acc a (List.mem_cons_self a t) hacc
    have h2 := ih (fun i b hb hq => hQ i b (List.mem_cons_of_mem a hb) hq)
      (fun i b hb hq => hG i b (List.mem_cons_of_mem a hb) hq) (F acc a) h1
    exact ⟨h2.1, h2.2.trans (hG acc a (List.mem_cons_self a t) hacc)⟩

/-- Distinct valid positions have distinct linear indices. -/
lemma G_ne {img : Image} {x y u v : Int}
    (hx : 0 ≤ x) (hx2 : x < (img.width : Int)) (hy : 0 ≤ y)
    (hu : 0 ≤ u) (hu2 : u < (img.width : Int)) (hv : 0 ≤ v)
    (hne : x ≠ u ∨ y ≠ v) : G img x y ≠ G img u v := by
  unfold G
  intro hEq
  have h1 : (0 : Int) ≤ y * (img.width : Int) + x :=
    add_nonneg (mul_nonneg hy (by positivity)) hx
  have h2 : (0 : Int) ≤ v * (img.width : Int) + u :=
    add_nonneg (mul_nonneg hv (by positivity)) hu
  have hEq2 : y * (img.width : Int) + x = v * (img.width : Int) + u := by
    have := hEq
    omega
  have hyv : y = v := by
    by_contra hyv
    have hsub : (y - v) * (img.width : Int) = u - x := by ring_nf; linarith [hEq2]
    rcases lt_or_gt_of_ne hyv with hlt | hgt
    · have hle : y - v ≤ -1 := by omega
      have := mul_le_mul_of_nonneg_right hle (by positivity : (0:Int) ≤ (img.width : Int))
      simp only [neg_mul, one_mul] at this
      omega
    · have hle : 1 ≤ y - v := by omega
      have := mul_le_mul_of_nonneg_right hle (by positivity : (0:Int) ≤ (img.width : Int))
      simp only [one_mul] at this
      omega
  subst hyv
  have hxu : x = u := by omega
  exact hne.elim (fun h => h hxu) (fun h => h rfl)

/-- Reading a position other than the one just written is unchanged. -/
lemma getPixel_setPixel_ne {img : Image} {x y u v : Int}
    (hx : 0 ≤ x) (hx2 : x < (img.width : Int)) (hy : 0 ≤ y)
    (hu : 0 ≤ u) (hu2 : u < (img.width : Int)) (hv : 0 ≤ v)
    (hne : x ≠ u ∨ y ≠ v) (lvl : Nat) :
    ImageGetPixel (ImageSetPixel img x y lvl) u v = ImageGetPixel img u v := by
  have hGne : G img x y ≠ G img u v := G_ne hx hx2 hy hu hu2 hv hne
  show (img.pixel.set (G img x y) lvl).getD (G img u v) 0 = img.pixel.getD (G img u v) 0
  rw [List.getD_eq_getElem?_getD, List.getD_eq_getElem?_getD,
    List.getElem?_set_ne hGne]

/-- Reading back the position just written yields the written level,
provided the raster has its invariant length. -/
lemma getPixel_setPixel_self {img : Image} {x y : Int}
    (hx : 0 ≤ x) (hx2 : x < (img.width : Int)) (hy : 0 ≤ y)
    (hy2 : y < (img.height : Int))
    (hlen : img.pixel.length = img.width * img.height) (lvl : Nat) :
    ImageGetPixel (ImageSetPixel img x y lvl) x y = lvl := by
  have hW : (0 : Int) < (img.width : Int) := lt_of_le_of_lt hx hx2
  have hidx : G img x y < img.pixel.length := by
    unfold G
    rw [hlen]
    have h0 : (0 : Int) ≤ y * (img.width : Int) + x :=
      add_nonneg (mul_nonneg hy (by positivity)) hx
    have hb : y * (img.width : Int) ≤ ((img.height : Int) - 1) * (img.width : Int) :=
      mul_le_mul_of_nonneg_right (by omega) (by positivity)
    have hlt : y * (img.width : Int) + x < ((img.width * img.height : Nat) : Int) := by
      push_cast
      nlinarith
    omega
  show (img.pixel.set (G img x y) lvl).getD (G img x y) 0 = lvl
  rw [List.getD_eq_getElem?_getD, List.getElem?_set_self hidx]
  rfl

/-! ### Lemmas about the decimal codec -/

lemma natDec_bounds (n : Nat) : ∀ b ∈ natDec n, 48 ≤ b ∧ b ≤ 57 := by
  induction n using Nat.strong_induction_on with
  | _ n ih =>
    rw [natDec]
    split
    · intro b hb
      simp only [List.mem_singleton] at hb
      omega
    · intro b hb
      rw [List.mem_append] at hb
      rcases hb with hb | hb
      · exact ih (n / 10) (Nat.div_lt_self (by omega) (by omega)) b hb
      · simp only [List.mem_singleton] at hb
        have := Nat.mod_lt n (show 0 < 10 by omega)
        omega

lemma natDec_ne_nil (n : Nat) : natDec n ≠ [] := by
  rw [natDec]
  split
  · simp
  · simp

lemma parseDigitsAux_natDec (n : Nat) : ∀ (rest : List Nat) (acc : Nat),
    parseDigitsAux (natDec n ++ rest) acc
      = parseDigitsAux rest (acc * 10 ^ (natDec n).length + n) := by
  induction n using Nat.strong_induction_on with
  | _ n ih =>
    intro rest acc
    rw [natDec]
    split
    · rename_i h
      have hd : isDigitB (n + 48) = true := by simp [isDigitB]; omega
      have h48 : n + 48 - 48 = n := by omega
      simp [List.singleton_append, parseDigitsAux, hd, h48, pow_one]
    · rename_i h
      rw [List.append_assoc, List.singleton_append,
        ih (n / 10) (Nat.div_lt_self (by omega) (by omega))]
      have hd : isDigitB (n % 10 + 48) = true := by
        have := Nat.mod_lt n (show 0 < 10 by omega)
        simp [isDigitB]; omega
      simp only [parseDigitsAux, hd, if_true]
      congr 1
      have h1 : n / 10 * 10 + n % 10 = n := by omega
      have h2 : n % 10 + 48 - 48 = n % 10 := by omega
      rw [h2, List.length_append, List.length_singleton, pow_succ]
      calc (acc * 10 ^ (natDec (n / 10)).length + n / 10) * 10 + n % 10
          = acc * (10 ^ (natDec (n / 10)).length * 10) + (n / 10 * 10 + n % 10) := by
            ring
        _ = acc * (10 ^ (natDec (n / 10)).length * 10) + n := by rw [h1]

lemma parseDigitsAux_stop (l : List Nat) (acc : Nat)
    (h : ∀ b, l.head? = some b → isDigitB b = false) :
    parseDigitsAux l acc = (acc, l) := by
  cases l with
  | nil => rfl
  | cons b t =>
    have hb := h b rfl
    simp [parseDigitsAux, hb]

lemma skipWS_no_space (l : List Nat)
    (h : ∀ b, l.head? = some b → isSpaceB b = false) : skipWS l = l := by
  cases l with
  | nil => rfl
  | cons b t =>
    have hb := h b rfl
    simp [skipWS, List.dropWhile_cons, hb]

lemma skipComments_no_hash (l : List Nat)
    (h : ∀ b, l.head? = some b → b ≠ 35) : skipComments l = l := by
  cases l with
  | nil => rfl
  | cons b t =>
    have hb : (b == 35) = false := by simpa using h b rfl
    simp [skipComments, skipCommentsAux, hb]

/-- The `%d` conversion reads back exactly the decimal digits printed by
`fprintf %d`, when the remaining stream does not begin with a digit. -/
lemma scanInt_natDec (n : Nat) (rest : List Nat)
    (h : ∀ b, rest.head? = some b → isDigitB b = false) :
    scanInt (natDec n ++ rest) = some ((n : Int), rest) := by
  obtain ⟨d, t, hdt⟩ : ∃ d t, natDec n = d :: t := by
    cases hn : natDec n with
    | nil => exact absurd hn (natDec_ne_nil n)
    | cons d t => exact ⟨d, t, rfl⟩
  have hd : 48 ≤ d ∧ d ≤ 57 := natDec_bounds n d (by rw [hdt]; exact List.mem_cons_self d t)
  have hspace : isSpaceB d = false := by simp [isSpaceB]; omega
  have hdigit : isDigitB d = true := by simp [isDigitB]; omega
  have h45 : (d == 45) = false := by simp; omega
  have h43 : (d == 43) = false := by simp; omega
  have hws : skipWS (natDec n ++ rest) = d :: (t ++ rest) := by
    rw [hdt, List.cons_append]
    exact skipWS_no_space _ (fun b hb => by
      simp only [List.head?_cons, Option.some_inj] at hb
      exact hb ▸ hspace)
  rw [scanInt, hws]
  simp only [h45, h43, Bool.false_eq_true, if_false]
  rw [scanIntCore]
  simp only [hdigit, if_true]
  have hparse : parseDigitsAux (d :: (t ++ rest)) 0 = (n, rest) := by
    rw [← List.cons_append, ← hdt, parseDigitsAux_natDec]
    rw [parseDigitsAux_stop rest _ h]
    simp
  rw [hparse]
  simp

lemma natDec_no_ws (n : Nat) (rest : List Nat) :
    skipWS (natDec n ++ rest) = natDec n ++ rest := by
  apply skipWS_no_space
  intro b hb
  obtain ⟨d, t, hdt⟩ : ∃ d t, natDec n = d :: t := by
    cases hn : natDec n with
    | nil => exact absurd hn (natDec_ne_nil n)
    | cons d t => exact ⟨d, t, rfl⟩
  rw [hdt, List.cons_append, List.head?_cons, Option.some_inj] at hb
  have hd : 48 ≤ d ∧ d ≤ 57 := natDec_bounds n d (by rw [hdt]; exact List.mem_cons_self d t)
  subst hb
  simp [isSpaceB]
  omega

lemma natDec_no_hash (n : Nat) (rest : List Nat) :
    skipComments (natDec n ++ rest) = natDec n ++ rest := by
  apply skipComments_no_hash
  intro b hb
  obtain ⟨d, t, hdt⟩ : ∃ d t, natDec n = d :: t := by
    cases hn : natDec n with
    | nil => exact absurd hn (natDec_ne_nil n)
    | cons d t => exact ⟨d, t, rfl⟩
  rw [hdt, List.cons_append, List.head?_cons, Option.some_inj] at hb
  have hd : 48 ≤ d ∧ d ≤ 57 := natDec_bounds n d (by rw [hdt]; exact List.mem_cons_self d t)
  subst hb
  omega

lemma skipWS_cons_ws (b : Nat) (hb : isSpaceB b = true) (X : List Nat) :
    skipWS (b :: X) = skipWS X := by
  simp [skipWS, List.dropWhile_cons, hb]

lemma head_cons_not_digit {b : Nat} (hb : isDigitB b = false) (X : List Nat) :
    ∀ c, (b :: X).head? = some c → isDigitB c = false := by
  intro c hc
  rw [List.head?_cons, Option.some_inj] at hc
  exact hc ▸ hb

/-- C6: saving an image and loading the emitted byte stream
`P5\n<width> <height>\n<maxval>\n<raster>` succeeds and returns an image
equal to the original in width, height, maxval and every sample. -/
theorem ImageSave_ImageLoad_roundtrip (img : Image)
    (hm1 : 0 < img.maxval) (hm2 : img.maxval ≤ 255)
    (hlen : img.pixel.length = img.width * img.height) :
    ImageLoadBytes (ImageSaveBytes img) = Except.ok img := by
  obtain ⟨w, h, m, px⟩ := img
  simp only at hm1 hm2 hlen
  have hsave : ImageSaveBytes ⟨w, h, m, px⟩
      = 80 :: 53 :: 10 :: (natDec w ++ (32 :: (natDec h ++ (10 :: (natDec m ++ (10 :: px)))))) := by
    simp [ImageSaveBytes]
  rw [hsave]
  have hws10 : isSpaceB 10 = true := by decide
  have hws32 : isSpaceB 32 = true := by decide
  have hnd10 : isDigitB 10 = false := by decide
  have hnd32 : isDigitB 32 = false := by decide
  have h1 : scanInt (skipComments (natDec w ++ (32 :: (natDec h ++ (10 :: (natDec m ++ (10 :: px)))))))
      = some ((w : Int), 32 :: (natDec h ++ (10 :: (natDec m ++ (10 :: px))))) := by
    rw [natDec_no_hash]
    exact scanInt_natDec w _ (head_cons_not_digit hnd32 _)
  have h2 : scanInt (skipComments (natDec h ++ (10 :: (natDec m ++ (10 :: px)))))
      = some ((h : Int), 10 :: (natDec m ++ (10 :: px))) := by
    rw [natDec_no_hash]
    exact scanInt_natDec h _ (head_cons_not_digit hnd10 _)
  have h3 : scanInt (skipComments (natDec m ++ (10 :: px)))
      = some ((m : Int), 10 :: px) := by
    rw [natDec_no_hash]
    exact scanInt_natDec m _ (head_cons_not_digit hnd10 _)
  simp only [ImageLoadBytes]
  rw [if_pos (by decide)]
  rw [skipWS_cons_ws 10 hws10, natDec_no_ws]
  simp only [loadDims, h1]
  rw [if_pos (by positivity)]
  rw [skipWS_cons_ws 32 hws32, natDec_no_ws]
  simp only [h2]
  rw [if_pos (by positivity)]
  rw [skipWS_cons_ws 10 hws10, natDec_no_ws]
  simp only [h3]
  rw [if_pos (by constructor <;> [exact_mod_cast hm1; exact_mod_cast hm2])]
  simp only [loadPixels]
  rw [if_pos hws10]
  rw [if_pos (by simp [Int.toNat_natCast, hlen])]
  simp [Int.toNat_natCast, ← hlen, List.take_length]

/-- C7: on any stream whose PGM header parses up to a maxval field equal
to 0 or greater than 255, ImageLoad fails with cause "Invalid maxval"
and returns no image (the error sentinel instead of an image value). -/
theorem ImageLoad_rejects_invalid_maxval (l : List Nat) (m : Int)
    (hp : parseMaxvalField l = some m) (hm : m = 0 ∨ 255 < m) :
    ImageLoadBytes l = Except.error "Invalid maxval" := by
  rcases l with _ | ⟨p, _ | ⟨c, rest⟩⟩
  · simp [parseMaxvalField] at hp
  · simp [parseMaxvalField] at hp
  · simp only [parseMaxvalField] at hp
    simp only [ImageLoadBytes]
    by_cases hpc : (p == 80 && c == 53) = true
    · rw [if_pos hpc] at hp ⊢
      simp only [loadDims]
      cases hw : scanInt (skipComments (skipWS rest)) with
      | none => simp [hw] at hp
      | some pr =>
        obtain ⟨w, r⟩ := pr
        simp only [hw] at hp ⊢
        by_cases h0w : (0 : Int) ≤ w
        · rw [if_pos h0w] at hp ⊢
          cases hh : scanInt (skipComments (skipWS r)) with
          | none => simp [hh] at hp
          | some pr2 =>
            obtain ⟨h, r2⟩ := pr2
            simp only [hh] at hp ⊢
            by_cases h0h : (0 : Int) ≤ h
            · rw [if_pos h0h] at hp ⊢
              cases hmx : scanInt (skipComments (skipWS r2)) with
              | none => simp [hmx] at hp
              | some pr3 =>
                obtain ⟨m2, r3⟩ := pr3
                simp only [hmx, Option.some_inj] at hp ⊢
                rw [if_neg (by omega)]
            · rw [if_neg h0h] at hp
              simp at hp
        · rw [if_neg h0w] at hp
          simp at hp
    · rw [if_neg hpc] at hp
      simp at hp

/-! ### Claim theorems -/

lemma brightenPixel_255_30_10 : brightenPixel 255 30 10 = 44 := by
  unfold brightenPixel
  have hf : ⌊((10 : Nat) : ℚ) * 30⌋ = 300 := by norm_num
  rw [hf]
  decide

/-- C1: the claim says `brighten` replaces each sample `s` by
`min(maxval, floor(s * factor))`, saturating large products at `maxval`.
On the 1×1 image with sample 10 and `factor = 30` the source instead
stores `(int)(10 * 30) = 300` into a `uint8`, wrapping to `300 % 256 =
44`, which the claimed formula would saturate to `min(255, 300) = 255`:
the narrowing conversion happens before the clamp, contradicting the
code's own saturation comment. -/
theorem ImageBrighten_wraps_around :
    ImageGetPixel (ImageBrighten ⟨1, 1, 255, [10]⟩ 30) 0 0 = 44 ∧
    min ((⟨1, 1, 255, [10]⟩ : Image).maxval : Int) ⌊((10 : ℚ) * 30)⌋ = 255 ∧
    (44 : Nat) ≠ 255 := by
  refine ⟨?_, by norm_num, by decide⟩
  have h10 : ImageGetPixel ⟨1, 1, 255, [10]⟩ 0 0 = 10 := by decide
  have hr1 : List.range 1 = [0] := rfl
  simp only [ImageBrighten, hr1, List.foldl_cons, List.foldl_nil,
    Nat.cast_zero, h10, brightenPixel_255_30_10]
  decide

/-- C2: the claim says that after `blur` each sample equals the
truncated mean of its clamped neighbourhood.  On the 2×1 image `[0, 2]`
with `dx = 1, dy = 0` the mean at `(0, 0)` is `(0 + 2) / 2 = 1` (the
source itself accumulates sum 2 and count 2), yet the source never
writes the means back, so the sample stays 0. -/
theorem ImageBlur_discards_means :
    ImageBlur ⟨2, 1, 255, [0, 2]⟩ 1 0 = ⟨2, 1, 255, [0, 2]⟩ ∧
    ImageGetPixel ⟨2, 1, 255, [0, 2]⟩ 0 0 = 0 ∧
    (blurSumCount ⟨2, 1, 255, [0, 2]⟩ 1 0 0 0).1 /
      (blurSumCount ⟨2, 1, 255, [0, 2]⟩ 1 0 0 0).2 = 1 := by
  refine ⟨rfl, by decide, by decide⟩

/-- C3: the claim says rotating `[[10, 20], [30, 40]]` yields row 0 =
`[20, 40]`, row 1 = `[10, 30]` (a counter-clockwise quarter turn, as the
code's own comment promises).  The source maps `(x, y)` to
`(height-1-y, x)`, which on this image produces row 0 = `[30, 10]`,
row 1 = `[40, 20]` — a clockwise quarter turn — so the claimed raster
differs from the computed one. -/
theorem ImageRotate_2x2_actual :
    ImageRotate ⟨2, 2, 255, [10, 20, 30, 40]⟩ = ⟨2, 2, 255, [30, 10, 40, 20]⟩ ∧
    (ImageRotate ⟨2, 2, 255, [10, 20, 30, 40]⟩).pixel ≠ [20, 40, 10, 30] := by
  constructor <;> decide

/-- C5: `blur` leaves the image argument completely unchanged for all
non-negative window radii (the source computes the means into discarded
locals and performs no write to `img`). -/
theorem ImageBlur_noop (img : Image) (dx dy : Int)
    (hdx : 0 ≤ dx) (hdy : 0 ≤ dy) :
    ImageBlur img dx dy = img := rfl

/-- Witness for C5 at a concrete image and `dx = dy = 0`. -/
theorem ImageBlur_noop_check :
    (0 : Int) ≤ 0 ∧ ImageBlur ⟨2, 1, 255, [7, 9]⟩ 0 0 = ⟨2, 1, 255, [7, 9]⟩ :=
  ⟨by decide, ImageBlur_noop ⟨2, 1, 255, [7, 9]⟩ 0 0 (by decide) (by decide)⟩

/-- C8: matching an image against itself at anchor `(0, 0)` succeeds,
and locating an image inside itself returns the anchor `(0, 0)` (the
hypotheses state the `valid_pos(img1, 0, 0)` precondition the source
asserts on entry to the matcher). -/
theorem ImageMatchLocate_self (img : Image)
    (hw : 0 < img.width) (hh : 0 < img.height) :
    ImageMatchSubImage img 0 0 img = true ∧
    ImageLocateSubImage img img = some (0, 0) := by
  have hm : ImageMatchSubImage img 0 0 img = true := by
    simp [ImageMatchSubImage, List.all_eq_true]
  refine ⟨hm, ?_⟩
  have h1 : ((img.height : Int) - img.height + 1).toNat = 1 := by simp
  have h2 : ((img.width : Int) - img.width + 1).toNat = 1 := by simp
  have hr1 : List.range 1 = [0] := rfl
  rw [ImageLocateSubImage, h1, h2, hr1]
  rw [List.findSome?_cons, List.findSome?_cons]
  simp only [Nat.cast_zero, hm, if_true]

/-- Witness for C8 at a concrete nonempty image. -/
theorem ImageMatchLocate_self_check :
    0 < (⟨2, 1, 255, [3, 4]⟩ : Image).width ∧
    0 < (⟨2, 1, 255, [3, 4]⟩ : Image).height ∧
    (ImageMatchSubImage ⟨2, 1, 255, [3, 4]⟩ 0 0 ⟨2, 1, 255, [3, 4]⟩ = true ∧
      ImageLocateSubImage ⟨2, 1, 255, [3, 4]⟩ ⟨2, 1, 255, [3, 4]⟩ = some (0, 0)) :=
  ⟨by decide, by decide, ImageMatchLocate_self ⟨2, 1, 255, [3, 4]⟩ (by decide) (by decide)⟩

/-- C10: a template with zero width or zero height matches everywhere:
at every valid anchor the comparison loops run zero iterations and the
matcher returns true. -/
theorem ImageMatch_empty_template (img1 img2 : Image) (x y : Int)
    (h2 : img2.width = 0 ∨ img2.height = 0)
    (hv : ImageValidPos img1 x y = true) :
    ImageMatchSubImage img1 x y img2 = true := by
  rcases h2 with h | h <;> simp [ImageMatchSubImage, h]

/-- Witness for C10 at a concrete image and empty template. -/
theorem ImageMatch_empty_template_check :
    ((⟨0, 5, 255, []⟩ : Image).width = 0 ∨ (⟨0, 5, 255, []⟩ : Image).height = 0) ∧
    ImageValidPos ⟨1, 1, 255, [6]⟩ 0 0 = true ∧
    ImageMatchSubImage ⟨1, 1, 255, [6]⟩ 0 0 ⟨0, 5, 255, []⟩ = true :=
  ⟨Or.inl rfl, by decide,
    ImageMatch_empty_template ⟨1, 1, 255, [6]⟩ ⟨0, 5, 255, []⟩ 0 0 (Or.inl rfl) (by decide)⟩

/-- Witness for C6 at the 2×1 image `[17, 200]` with maxval 255. -/
theorem ImageSave_ImageLoad_roundtrip_check :
    0 < (⟨2, 1, 255, [17, 200]⟩ : Image).maxval ∧
    (⟨2, 1, 255, [17, 200]⟩ : Image).maxval ≤ 255 ∧
    (⟨2, 1, 255, [17, 200]⟩ : Image).pixel.length
      = (⟨2, 1, 255, [17, 200]⟩ : Image).width * (⟨2, 1, 255, [17, 200]⟩ : Image).height ∧
    ImageLoadBytes (ImageSaveBytes ⟨2, 1, 255, [17, 200]⟩) = Except.ok ⟨2, 1, 255, [17, 200]⟩ :=
  ⟨by decide, by decide, by decide,
    ImageSave_ImageLoad_roundtrip ⟨2, 1, 255, [17, 200]⟩ (by decide) (by decide) (by decide)⟩

/-- Witness for C7 on the stream `P5 1 1 0 7` whose maxval field is 0. -/
theorem ImageLoad_rejects_invalid_maxval_check :
    parseMaxvalField [80, 53, 32, 49, 32, 49, 32, 48, 32, 55] = some 0 ∧
    ((0 : Int) = 0 ∨ 255 < (0 : Int)) ∧
    ImageLoadBytes [80, 53, 32, 49, 32, 49, 32, 48, 32, 55]
      = Except.error "Invalid maxval" :=
  ⟨by decide, Or.inl rfl,
    ImageLoad_rejects_invalid_maxval [80, 53, 32, 49, 32, 49, 32, 48, 32, 55] 0
      (by decide) (Or.inl rfl)⟩

/-- C9: pasting `img2` into `img1` at a valid anchor `(x, y)` leaves
every sample of `img1` outside the pasted rectangle unchanged, and
leaves `img1`'s width, height and maxval unchanged. -/
theorem ImagePaste_frame (img1 img2 : Image) (x y u v : Int)
    (hrect : ImageValidRect img1 x y img2.width img2.height = true)
    (hpos : ImageValidPos img1 u v = true)
    (hout : ¬(x ≤ u ∧ u < x + img2.width ∧ y ≤ v ∧ v < y + img2.height)) :
    ImageGetPixel (ImagePaste img1 x y img2) u v = ImageGetPixel img1 u v ∧
    (ImagePaste img1 x y img2).width = img1.width ∧
    (ImagePaste img1 x y img2).height = img1.height ∧
    (ImagePaste img1 x y img2).maxval = img1.maxval := by
  simp only [ImageValidRect, Bool.and_eq_true, decide_eq_true_eq] at hrect
  simp only [ImageValidPos, Bool.and_eq_true, decide_eq_true_eq] at hpos
  obtain ⟨⟨hx0, hxw⟩, hy0, hyh⟩ := hrect
  obtain ⟨⟨hu0, huw⟩, hv0, hvh⟩ := hpos
  have hstep : ∀ (j : Nat), j < img2.height → ∀ (acc2 : Image), ∀ (i : Nat), i < img2.width →
      ShapeEq img1.width img1.height img1.maxval img1.pixel.length acc2 →
      ImageGetPixel (ImageSetPixel acc2 (x + (i : Int)) (y + (j : Int))
        (ImageGetPixel img2 (i : Int) (j : Int))) u v = ImageGetPixel acc2 u v := by
    intro j hj acc2 i hi hq
    obtain ⟨qW, qH, qM, qL⟩ := hq
    have hiw : ((i : Int)) < (img2.width : Int) := by exact_mod_cast hi
    have hjh : ((j : Int)) < (img2.height : Int) := by exact_mod_cast hj
    apply getPixel_setPixel_ne
    · positivity
    · rw [qW]; omega
    · positivity
    · exact hu0
    · rw [qW]; exact huw
    · exact hv0
    · by_contra hc
      push_neg at hc
      obtain ⟨h1, h2⟩ := hc
      exact hout ⟨by omega, by omega, by omega, by omega⟩
  have inner : ∀ (acc : Image) (j : Nat), j ∈ List.range img2.height →
      ShapeEq img1.width img1.height img1.maxval img1.pixel.length acc →
      ShapeEq img1.width img1.height img1.maxval img1.pixel.length
        ((List.range img2.width).foldl (fun acc2 (i : Nat) =>
          ImageSetPixel acc2 (x + (i : Int)) (y + (j : Int))
            (ImageGetPixel img2 (i : Int) (j : Int))) acc) ∧
      ImageGetPixel ((List.range img2.width).foldl (fun acc2 (i : Nat) =>
          ImageSetPixel acc2 (x + (i : Int)) (y + (j : Int))
            (ImageGetPixel img2 (i : Int) (j : Int))) acc) u v
        = ImageGetPixel acc u v := by
    intro acc j hj hq
    exact foldl_preserve (fun acc2 (i : Nat) =>
        ImageSetPixel acc2 (x + (i : Int)) (y + (j : Int))
          (ImageGetPixel img2 (i : Int) (j : Int)))
      (ShapeEq img1.width img1.height img1.maxval img1.pixel.length)
      (fun a => ImageGetPixel a u v) (List.range img2.width)
      (fun a i hi hq2 => shapeEq_setPixel hq2 _ _ _)
      (fun a i hi hq2 => hstep j (List.mem_range.mp hj) a i (List.mem_range.mp hi) hq2)
      acc hq
  have final := foldl_preserve (fun acc (j : Nat) =>
      (List.range img2.width).foldl (fun acc2 (i : Nat) =>
        ImageSetPixel acc2 (x + (i : Int)) (y + (j : Int))
          (ImageGetPixel img2 (i : Int) (j : Int))) acc)
    (ShapeEq img1.width img1.height img1.maxval img1.pixel.length)
    (fun a => ImageGetPixel a u v) (List.range img2.height)
    (fun a j hj hq => (inner a j hj hq).1)
    (fun a j hj hq => (inner a j hj hq).2)
    img1 ⟨rfl, rfl, rfl, rfl⟩
  exact ⟨final.2, final.1.1, final.1.2.1, final.1.2.2.1⟩

/-- Witness for C9: pasting a 1×1 image into the corner of a 2×2 image
leaves the opposite corner sample and the dimensions unchanged. -/
theorem ImagePaste_frame_check :
    ImageValidRect ⟨2, 2, 255, [1, 2, 3, 4]⟩ 0 0
      (⟨1, 1, 9, [7]⟩ : Image).width (⟨1, 1, 9, [7]⟩ : Image).height = true ∧
    ImageValidPos ⟨2, 2, 255, [1, 2, 3, 4]⟩ 1 1 = true ∧
    ¬((0 : Int) ≤ 1 ∧ (1 : Int) < 0 + (⟨1, 1, 9, [7]⟩ : Image).width ∧
      (0 : Int) ≤ 1 ∧ (1 : Int) < 0 + (⟨1, 1, 9, [7]⟩ : Image).height) ∧
    (ImageGetPixel (ImagePaste ⟨2, 2, 255, [1, 2, 3, 4]⟩ 0 0 ⟨1, 1, 9, [7]⟩) 1 1
        = ImageGetPixel ⟨2, 2, 255, [1, 2, 3, 4]⟩ 1 1 ∧
      (ImagePaste ⟨2, 2, 255, [1, 2, 3, 4]⟩ 0 0 ⟨1, 1, 9, [7]⟩).width
        = (⟨2, 2, 255, [1, 2, 3, 4]⟩ : Image).width ∧
      (ImagePaste ⟨2, 2, 255, [1, 2, 3, 4]⟩ 0 0 ⟨1, 1, 9, [7]⟩).height
        = (⟨2, 2, 255, [1, 2, 3, 4]⟩ : Image).height ∧
      (ImagePaste ⟨2, 2, 255, [1, 2, 3, 4]⟩ 0 0 ⟨1, 1, 9, [7]⟩).maxval
        = (⟨2, 2, 255, [1, 2, 3, 4]⟩ : Image).maxval) :=
  ⟨by decide, by decide, by decide,
    ImagePaste_frame ⟨2, 2, 255, [1, 2, 3, 4]⟩ ⟨1, 1, 9, [7]⟩ 0 0 1 1
      (by decide) (by decide) (by decide)⟩

/-- A rotate row loop whose write positions all avoid `(u, v)` preserves
the destination shape and the sample at `(u, v)`. -/
lemma rotate_row_frame (img : Image) (u v : Int) (j : Nat) (hj : j < img.height)
    (hu0 : 0 ≤ u) (huW : u < (img.height : Int)) (hv0 : 0 ≤ v)
    (hne : ∀ i : Nat, i < img.width →
      ((img.height : Int) - (j : Int) - 1 ≠ u ∨ (i : Int) ≠ v)) :
    ∀ acc, ShapeEq img.height img.width img.maxval (img.height * img.width) acc →
      ShapeEq img.height img.width img.maxval (img.height * img.width)
        ((List.range img.width).foldl (fun acc2 (x : Nat) =>
          ImageSetPixel acc2 ((img.height : Int) - (j : Int) - 1) (x : Int)
            (ImageGetPixel img (x : Int) (j : Int))) acc) ∧
      ImageGetPixel ((List.range img.width).foldl (fun acc2 (x : Nat) =>
          ImageSetPixel acc2 ((img.height : Int) - (j : Int) - 1) (x : Int)
            (ImageGetPixel img (x : Int) (j : Int))) acc) u v
        = ImageGetPixel acc u v := by
  intro acc hq
  refine foldl_preserve (fun acc2 (x : Nat) =>
      ImageSetPixel acc2 ((img.height : Int) - (j : Int) - 1) (x : Int)
        (ImageGetPixel img (x : Int) (j : Int)))
    (ShapeEq img.height img.width img.maxval (img.height * img.width))
    (fun a => ImageGetPixel a u v) (List.range img.width)
    (fun a i hi hq2 => shapeEq_setPixel hq2 _ _ _)
    (fun a i hi hq2 => ?_) acc hq
  obtain ⟨qW, qH, qM, qL⟩ := hq2
  exact getPixel_setPixel_ne (by omega) (by rw [qW]; omega) (by positivity)
    hu0 (by rw [qW]; exact huW) hv0 (hne i (List.mem_range.mp hi)) _

/-- C4: rotate returns a fresh `height × width` image with the same
maxval, whose sample at `(height - 1 - y, x)` is the input's sample at
`(x, y)` for every valid position of the input. -/
theorem ImageRotate_correct (img : Image) (x y : Int)
    (hlen : img.pixel.length = img.width * img.height)
    (hpos : ImageValidPos img x y = true) :
    (ImageRotate img).width = img.height ∧
    (ImageRotate img).height = img.width ∧
    (ImageRotate img).maxval = img.maxval ∧
    ImageGetPixel (ImageRotate img) ((img.height : Int) - 1 - y) x
      = ImageGetPixel img x y := by
  simp only [ImageValidPos, Bool.and_eq_true, decide_eq_true_eq] at hpos
  obtain ⟨⟨hx0, hxw⟩, hy0, hyh⟩ := hpos
  obtain ⟨xn, rfl⟩ : ∃ n : Nat, x = (n : Int) := ⟨x.toNat, (Int.toNat_of_nonneg hx0).symm⟩
  obtain ⟨yn, rfl⟩ : ∃ n : Nat, y = (n : Int) := ⟨y.toNat, (Int.toNat_of_nonneg hy0).symm⟩
  have hxnw : xn < img.width := by exact_mod_cast hxw
  have hynh : yn < img.height := by exact_mod_cast hyh
  have hu0 : (0 : Int) ≤ (img.height : Int) - 1 - (yn : Int) := by omega
  have huW : (img.height : Int) - 1 - (yn : Int) < (img.height : Int) := by omega
  have hv0 : (0 : Int) ≤ ((xn : Nat) : Int) := by positivity
  have hQ0 : ShapeEq img.height img.width img.maxval (img.height * img.width)
      (ImageCreate img.height img.width img.maxval) :=
    ⟨rfl, rfl, rfl, by simp [ImageCreate]⟩
  have hsplit : List.range img.height
      = (List.range yn ++ [yn])
        ++ (List.range (img.height - 1 - yn)).map (fun k => yn + 1 + k) := by
    rw [← List.range_succ, ← List.range_add]
    congr 1
    omega
  have hsplitW : List.range img.width
      = (List.range xn ++ [xn])
        ++ (List.range (img.width - 1 - xn)).map (fun k => xn + 1 + k) := by
    rw [← List.range_succ, ← List.range_add]
    congr 1
    omega
  simp only [ImageRotate]
  rw [hsplit, List.foldl_append, List.foldl_append]
  -- phase 1: rows before yn write to destination columns above the target
  have phase1 := foldl_preserve (fun acc (j : Nat) =>
      (List.range img.width).foldl (fun acc2 (i : Nat) =>
        ImageSetPixel acc2 ((img.height : Int) - (j : Int) - 1) (i : Int)
          (ImageGetPixel img (i : Int) (j : Int))) acc)
    (ShapeEq img.height img.width img.maxval (img.height * img.width))
    (fun a => ImageGetPixel a ((img.height : Int) - 1 - (yn : Int)) ((xn : Nat) : Int))
    (List.range yn)
    (fun a j hj hq => (rotate_row_frame img _ _ j
      (by have := List.mem_range.mp hj; omega) hu0 huW hv0
      (fun i hi => Or.inl (by have := List.mem_range.mp hj; omega)) a hq).1)
    (fun a j hj hq => (rotate_row_frame img _ _ j
      (by have := List.mem_range.mp hj; omega) hu0 huW hv0
      (fun i hi => Or.inl (by have := List.mem_range.mp hj; omega)) a hq).2)
    (ImageCreate img.height img.width img.maxval) hQ0
  -- phase 2: the row yn writes the target value at the target position
  have phase2 : ∀ acc, ShapeEq img.height img.width img.maxval (img.height * img.width) acc →
      ShapeEq img.height img.width img.maxval (img.height * img.width)
        ((List.range img.width).foldl (fun acc2 (i : Nat) =>
          ImageSetPixel acc2 ((img.height : Int) - (yn : Int) - 1) (i : Int)
            (ImageGetPixel img (i : Int) (yn : Int))) acc) ∧
      ImageGetPixel ((List.range img.width).foldl (fun acc2 (i : Nat) =>
          ImageSetPixel acc2 ((img.height : Int) - (yn : Int) - 1) (i : Int)
            (ImageGetPixel img (i : Int) (yn : Int))) acc)
          ((img.height : Int) - 1 - (yn : Int)) ((xn : Nat) : Int)
        = ImageGetPixel img ((xn : Nat) : Int) ((yn : Nat) : Int) := by
    intro acc hq
    rw [hsplitW, List.foldl_append, List.foldl_append]
    -- columns before xn
    have p2a := foldl_preserve (fun acc2 (i : Nat) =>
        ImageSetPixel acc2 ((img.height : Int) - (yn : Int) - 1) (i : Int)
          (ImageGetPixel img (i : Int) (yn : Int)))
      (ShapeEq img.height img.width img.maxval (img.height * img.width))
      (fun a => ImageGetPixel a ((img.height : Int) - 1 - (yn : Int)) ((xn : Nat) : Int))
      (List.range xn)
      (fun a i hi hq2 => shapeEq_setPixel hq2 _ _ _)
      (fun a i hi hq2 => by
        obtain ⟨qW, qH, qM, qL⟩ := hq2
        exact getPixel_setPixel_ne (by omega) (by rw [qW]; omega) (by positivity)
          hu0 (by rw [qW]; exact huW) hv0
          (Or.inr (by have := List.mem_range.mp hi; omega)) _)
      acc hq
    -- the write at column xn
    have hmid : ∀ a2, ShapeEq img.height img.width img.maxval (img.height * img.width) a2 →
        ShapeEq img.height img.width img.maxval (img.height * img.width)
          (ImageSetPixel a2 ((img.height : Int) - (yn : Int) - 1) ((xn : Nat) : Int)
            (ImageGetPixel img ((xn : Nat) : Int) (yn : Int))) ∧
        ImageGetPixel (ImageSetPixel a2 ((img.height : Int) - (yn : Int) - 1) ((xn : Nat) : Int)
            (ImageGetPixel img ((xn : Nat) : Int) (yn : Int)))
          ((img.height : Int) - 1 - (yn : Int)) ((xn : Nat) : Int)
          = ImageGetPixel img ((xn : Nat) : Int) ((yn : Nat) : Int) := by
      intro a2 hq2
      obtain ⟨qW, qH, qM, qL⟩ := hq2
      refine ⟨shapeEq_setPixel ⟨qW, qH, qM, qL⟩ _ _ _, ?_⟩
      have hco : ((img.height : Int) - (yn : Int) - 1) = (img.height : Int) - 1 - (yn : Int) := by
        ring
      rw [hco]
      exact getPixel_setPixel_self hu0 (by rw [qW]; exact huW) hv0
        (by rw [qH]; exact_mod_cast hxnw)
        (by rw [qL, qW, qH]) _
    -- columns after xn
    have p2c := foldl_preserve (fun acc2 (i : Nat) =>
        ImageSetPixel acc2 ((img.height : Int) - (yn : Int) - 1) (i : Int)
          (ImageGetPixel img (i : Int) (yn : Int)))
      (ShapeEq img.height img.width img.maxval (img.height * img.width))
      (fun a => ImageGetPixel a ((img.height : Int) - 1 - (yn : Int)) ((xn : Nat) : Int))
      ((List.range (img.width - 1 - xn)).map (fun k => xn + 1 + k))
      (fun a i hi hq2 => shapeEq_setPixel hq2 _ _ _)
      (fun a i hi hq2 => by
        obtain ⟨qW, qH, qM, qL⟩ := hq2
        obtain ⟨k, hk, rfl⟩ := List.mem_map.mp hi
        have := List.mem_range.mp hk
        exact getPixel_setPixel_ne (by omega) (by rw [qW]; omega) (by positivity)
          hu0 (by rw [qW]; exact huW) hv0 (Or.inr (by omega)) _)
      _ ((hmid _ (p2a.1)).1)
    simp only [List.foldl_cons, List.foldl_nil] at p2c ⊢
    exact ⟨p2c.1, by rw [p2c.2, (hmid _ (p2a.1)).2]⟩
  -- phase 3: rows after yn write to destination columns below the target
  have phase3 := foldl_preserve (fun acc (j : Nat) =>
      (List.range img.width).foldl (fun acc2 (i : Nat) =>
        ImageSetPixel acc2 ((img.height : Int) - (j : Int) - 1) (i : Int)
          (ImageGetPixel img (i : Int) (j : Int))) acc)
    (ShapeEq img.height img.width img.maxval (img.height * img.width))
    (fun a => ImageGetPixel a ((img.height : Int) - 1 - (yn : Int)) ((xn : Nat) : Int))
    ((List.range (img.height - 1 - yn)).map (fun k => yn + 1 + k))
    (fun a j hj hq => (rotate_row_frame img _ _ j
      (by obtain ⟨k, hk, rfl⟩ := List.mem_map.mp hj; have := List.mem_range.mp hk; omega) hu0 huW hv0
      (fun i hi => Or.inl (by obtain ⟨k, hk, rfl⟩ := List.mem_map.mp hj; have := List.mem_range.mp hk; omega)) a hq).1)
    (fun a j hj hq => (rotate_row_frame img _ _ j
      (by obtain ⟨k, hk, rfl⟩ := List.mem_map.mp hj; have := List.mem_range.mp hk; omega) hu0 huW hv0
      (fun i hi => Or.inl (by obtain ⟨k, hk, rfl⟩ := List.mem_map.mp hj; have := List.mem_range.mp hk; omega)) a hq).2)
    _ (phase2 _ phase1.1).1
  simp only [List.foldl_cons, List.foldl_nil] at phase3 ⊢
  refine ⟨phase3.1.1, phase3.1.2.1, phase3.1.2.2.1, ?_⟩
  rw [phase3.2, (phase2 _ phase1.1).2]

/-- Witness for C4 on the 2×2 image `[[10, 20], [30, 40]]` at `(0, 0)`. -/
theorem ImageRotate_correct_check :
    (⟨2, 2, 255, [10, 20, 30, 40]⟩ : Image).pixel.length
      = (⟨2, 2, 255, [10, 20, 30, 40]⟩ : Image).width
        * (⟨2, 2, 255, [10, 20, 30, 40]⟩ : Image).height ∧
    ImageValidPos ⟨2, 2, 255, [10, 20, 30, 40]⟩ 0 0 = true ∧
    ((ImageRotate ⟨2, 2, 255, [10, 20, 30, 40]⟩).width
        = (⟨2, 2, 255, [10, 20, 30, 40]⟩ : Image).height ∧
      (ImageRotate ⟨2, 2, 255, [10, 20, 30, 40]⟩).height
        = (⟨2, 2, 255, [10, 20, 30, 40]⟩ : Image).width ∧
      (ImageRotate ⟨2, 2, 255, [10, 20, 30, 40]⟩).maxval
        = (⟨2, 2, 255, [10, 20, 30, 40]⟩ : Image).maxval ∧
      ImageGetPixel (ImageRotate ⟨2, 2, 255, [10, 20, 30, 40]⟩)
          (((⟨2, 2, 255, [10, 20, 30, 40]⟩ : Image).height : Int) - 1 - 0) 0
        = ImageGetPixel ⟨2, 2, 255, [10, 20, 30, 40]⟩ 0 0) :=
  ⟨by decide, by decide,
    ImageRotate_correct ⟨2, 2, 255, [10, 20, 30, 40]⟩ 0 0 (by decide) (by decide)⟩
